import Mathlib

/-!
Verification of the seed-agent job admission, dispatch, and retry engine.

The definitions below are a shallow embedding of the TypeScript sources:

* the `AgentRunner` dispatcher (v2 runner: `handleWebSocketJob`, `poll`,
  `acceptAndProcessSwarmJob`, `processJob`, `markJobProcessed`), and
* the `LLMClient` generation orchestrator (`generate`, `executeGeneration`,
  `getRetryDelay`, `isRetryableError`).

The dispatcher runs on a single-threaded cooperative event loop: an async
function executes synchronously up to its first `await`, where it suspends
and other callbacks may run.  We embed this as a labelled transition system:
each transition is one maximal synchronous segment of the source code, and
the suspended continuations (the code after an `await`) are recorded in the
state as pending tasks.  Budgets are embedded as rationals, job identifiers
as naturals, and JavaScript `Set` objects as duplicate-free lists in
insertion order (which is what `Array.from` observes).
-/

namespace SeedAgent

/-- Character-list matching at the head: `matchesAt pat l` is true when
`pat` is an initial segment of `l`. -/
def matchesAt : List Char → List Char → Bool
  | [], _ => true
  | _ :: _, [] => false
  | p :: ps, c :: cs => (p == c) && matchesAt ps cs

/-- `containsPat pat l` is true when `pat` occurs as a contiguous
subsequence of `l`. -/
def containsPat (pat : List Char) : List Char → Bool
  | [] => pat.isEmpty
  | c :: rest => matchesAt pat (c :: rest) || containsPat pat rest

/-- JavaScript `String.prototype.includes`, as used by the error-message
dispatch in `acceptAndProcessSwarmJob`, `processJob` and
`isRetryableError`. -/
def jsIncludes (s pat : String) : Bool := containsPat pat.toList s.toList

/-- JavaScript `Math.round`: round half toward positive infinity. -/
def jsRound (x : ℚ) : ℤ := ⌊x + 1/2⌋

/-- JavaScript `Set.prototype.add` on a duplicate-free list in insertion
order: adding an element that is already present neither duplicates it nor
moves it. -/
def setAdd (l : List ℕ) (x : ℕ) : List ℕ := if x ∈ l then l else l ++ [x]

/-- Job kind: the `jobType` field, `"STANDARD"` or `"SWARM"`. -/
inductive JobType where
  | standard
  | swarm
deriving DecidableEq

/-- The fields of a marketplace job that the dispatcher consumes. -/
structure Job where
  id : ℕ
  budget : ℚ
  jobType : JobType
  budgetPerAgent : Option ℚ
deriving DecidableEq

/-- The fields of a push (WebSocket) notification payload that the
dispatcher consumes (`WebSocketJobEvent`). -/
structure WsEvent where
  jobId : ℕ
  budget : ℚ
  jobType : JobType
  budgetPerAgent : Option ℚ
deriving DecidableEq

/-- JavaScript truthiness of a `number | null | undefined` value: `null`,
`undefined` and `0` are falsy. -/
def truthy : Option ℚ → Bool
  | none => false
  | some q => if q = 0 then false else true

/-- The effective-budget expression
`ty === "SWARM" && bpa ? bpa : budget` shared by both discovery paths. -/
def effBudget (ty : JobType) (bpa : Option ℚ) (budget : ℚ) : ℚ :=
  if ty = JobType.swarm ∧ truthy bpa then bpa.getD budget else budget

/-- Effective budget of a polled job (`AgentRunner.poll`,
`AgentRunner.processJob`). -/
def effectiveBudget (j : Job) : ℚ := effBudget j.jobType j.budgetPerAgent j.budget

/-- Effective budget of a pushed job notification
(`AgentRunner.handleWebSocketJob`). -/
def wsEffectiveBudget (e : WsEvent) : ℚ := effBudget e.jobType e.budgetPerAgent e.budget

/-- `AgentRunner.markJobProcessed`: insert into the completed set, then
keep only the last 1000 identifiers (`Array.from(set).slice(-1000)`). -/
def markJobProcessed (l : List ℕ) (x : ℕ) : List ℕ :=
  let l' := setAdd l x
  if 1000 < l'.length then l'.drop (l'.length - 1000) else l'

/-- A continuation suspended at an `await`:

* `wsFetch e`  — `handleWebSocketJob` suspended at `await getJobV2`;
* `acceptWait j` — `acceptAndProcessSwarmJob` suspended at `await acceptJob`;
* `jobRun id` — `processJob` suspended at generation/submission. -/
inductive PendingTask where
  | wsFetch (e : WsEvent)
  | acceptWait (j : Job)
  | jobRun (id : ℕ)
deriving DecidableEq

/-- Dispatcher state: the two identifier sets, the suspended continuations,
and observation logs of the emitted lifecycle events.  `starts` records one
entry per `processJob` invocation (the `job_processing` emission) together
with the effective budget written into the generation prompt; `accepted`
records `job_accepted` emissions with the budget-per-agent reported by the
acceptance response; `errorEvents` records job-level error emissions. -/
structure AgentState where
  processing : List ℕ
  processed : List ℕ
  pending : List PendingTask
  starts : List (ℕ × ℚ)
  accepted : List (ℕ × Option ℚ)
  errorEvents : List String
deriving DecidableEq

/-- The configuration values the dispatcher consumes. -/
structure Config where
  minBudget : ℚ
  maxConcurrentJobs : ℕ
deriving DecidableEq

/-- Dispatcher state at startup: `processedJobs` is loaded from persistent
storage, everything else is empty. -/
def initState (stored : List ℕ) : AgentState :=
  ⟨[], stored, [], [], [], []⟩

/-- The synchronous prefix of `AgentRunner.processJob`: insert the job id
into `processingJobs`, emit `job_processing`, and call the generator with
the system prompt containing the recomputed effective budget; the function
then suspends (recorded as a `jobRun` task). -/
def processJobStart (s : AgentState) (j : Job) : AgentState :=
  { s with
    processing := setAdd s.processing j.id
    pending := s.pending ++ [PendingTask.jobRun j.id]
    starts := s.starts ++ [(j.id, effectiveBudget j)] }

/-- The `finally` block of `AgentRunner.processJob`: remove the id from
`processingJobs` and record it as processed. -/
def processJobFinish (s : AgentState) (id : ℕ) : AgentState :=
  { s with
    processing := s.processing.erase id
    processed := markJobProcessed s.processed id }

/-- A terminal skip: `markJobProcessed` plus the skip bookkeeping. -/
def markSkip (s : AgentState) (id : ℕ) : AgentState :=
  { s with processed := markJobProcessed s.processed id }

/-- The synchronous prefix of `AgentRunner.handleWebSocketJob`: the
already-seen, capacity and budget checks on the notification payload.  On
admission the handler suspends at `await getJobV2` (a `wsFetch` task);
note that nothing is inserted into `processingJobs` before that await. -/
def handleWebSocketJob (cfg : Config) (s : AgentState) (e : WsEvent) : AgentState :=
  if e.jobId ∈ s.processing ∨ e.jobId ∈ s.processed then s
  else if cfg.maxConcurrentJobs ≤ s.processing.length then s
  else if wsEffectiveBudget e < cfg.minBudget then markSkip s e.jobId
  else { s with pending := s.pending ++ [PendingTask.wsFetch e] }

/-- Resumption of `handleWebSocketJob` after `getJobV2` returns job `j`:
swarm jobs enter `acceptAndProcessSwarmJob` (which immediately suspends at
`await acceptJob`), standard jobs enter `processJob` directly.  No check is
re-validated after the suspension. -/
def handleWebSocketJobResume (s : AgentState) (j : Job) : AgentState :=
  if j.jobType = JobType.swarm then
    { s with pending := s.pending ++ [PendingTask.acceptWait j] }
  else processJobStart s j

/-- Outcome of the `acceptJob` call: either a successful acceptance
carrying `acceptance.budgetPerAgent`, or a thrown error with a message. -/
inductive AcceptOutcome where
  | ok (budgetPerAgent : Option ℚ)
  | err (msg : String)
deriving DecidableEq

/-- Resumption of `AgentRunner.acceptAndProcessSwarmJob` after the
`acceptJob` call settles: on success, emit `job_accepted` (reporting the
budget from the acceptance response) and enter `processJob` on the
original candidate `j`; on a full-job error, record a terminal skip; on an
already-accepted error, return silently; any other error propagates to the
enclosing catch handler, which emits a job-level error event. -/
def acceptAndProcessSwarmJobResume (s : AgentState) (j : Job) : AcceptOutcome → AgentState
  | AcceptOutcome.ok bpa =>
      processJobStart { s with accepted := s.accepted ++ [(j.id, bpa)] } j
  | AcceptOutcome.err msg =>
      if jsIncludes msg "job_full" || jsIncludes msg "All agent slots" then
        markSkip s j.id
      else if jsIncludes msg "already accepted" then s
      else { s with errorEvents := s.errorEvents ++ [msg] }

/-- The synchronous job loop of `AgentRunner.poll`, entered when
`listJobsV2` resolves with `js`: already-seen jobs are skipped, reaching
capacity breaks out of the loop, below-budget jobs are terminally skipped,
swarm jobs spawn an `acceptAndProcessSwarmJob` continuation (suspended at
`acceptJob`, with no `processingJobs` insertion yet), and standard jobs
enter `processJob`, whose synchronous prefix runs inside the loop. -/
def pollLoop (cfg : Config) : AgentState → List Job → AgentState
  | s, [] => s
  | s, j :: rest =>
    if j.id ∈ s.processing ∨ j.id ∈ s.processed then pollLoop cfg s rest
    else if cfg.maxConcurrentJobs ≤ s.processing.length then s
    else if effectiveBudget j < cfg.minBudget then pollLoop cfg (markSkip s j.id) rest
    else if j.jobType = JobType.swarm then
      pollLoop cfg { s with pending := s.pending ++ [PendingTask.acceptWait j] } rest
    else pollLoop cfg (processJobStart s j) rest

/-- One event-loop transition of the dispatcher.  Each constructor is one
maximal synchronous segment of the source: a push notification arriving, a
poll response arriving, or one suspended continuation resuming (with the
I/O result chosen nondeterministically by the environment). -/
inductive Step (cfg : Config) : AgentState → AgentState → Prop where
  | wsEvent (s : AgentState) (e : WsEvent) :
      Step cfg s (handleWebSocketJob cfg s e)
  | pollPass (s : AgentState) (js : List Job) :
      Step cfg s (pollLoop cfg s js)
  | wsFetchResume (s : AgentState) (l₁ l₂ : List PendingTask) (e : WsEvent) (j : Job) :
      j.id = e.jobId →
      s.pending = l₁ ++ PendingTask.wsFetch e :: l₂ →
      Step cfg s (handleWebSocketJobResume { s with pending := l₁ ++ l₂ } j)
  | wsFetchFail (s : AgentState) (l₁ l₂ : List PendingTask) (e : WsEvent) :
      s.pending = l₁ ++ PendingTask.wsFetch e :: l₂ →
      Step cfg s { s with pending := l₁ ++ l₂ }
  | acceptResume (s : AgentState) (l₁ l₂ : List PendingTask) (j : Job) (o : AcceptOutcome) :
      s.pending = l₁ ++ PendingTask.acceptWait j :: l₂ →
      Step cfg s (acceptAndProcessSwarmJobResume { s with pending := l₁ ++ l₂ } j o)
  | jobDone (s : AgentState) (l₁ l₂ : List PendingTask) (id : ℕ) :
      s.pending = l₁ ++ PendingTask.jobRun id :: l₂ →
      Step cfg s (processJobFinish { s with pending := l₁ ++ l₂ } id)

/-- Reachability in the dispatcher transition system. -/
def Reachable (cfg : Config) : AgentState → AgentState → Prop :=
  Relation.ReflTransGen (Step cfg)

/-! The generation orchestrator (`LLMClient` in the LLM client module). -/

/-- A JavaScript error as inspected by `isRetryableError`: a name, a
message, and an optional nested `cause`. -/
inductive JsError where
  | leaf (name message : String)
  | withCause (name message : String) (cause : JsError)
deriving DecidableEq

/-- The `RETRYABLE_ERROR_PATTERNS` list. -/
def RETRYABLE_ERROR_PATTERNS : List String :=
  ["InvalidToolArgumentsError", "AI_InvalidToolArgumentsError",
   "JSONParseError", "AI_JSONParseError"]

/-- The name/message tests applied at one level of `isRetryableError`:
the error name contains one of the retryable patterns, or the message
contains one of the two JSON-parsing phrases. -/
def retryableHit (name message : String) : Bool :=
  RETRYABLE_ERROR_PATTERNS.any (fun p => jsIncludes name p) ||
  jsIncludes message "JSON parsing failed" ||
  jsIncludes message "Invalid arguments for tool"

/-- `isRetryableError`: check name and message, then recurse into the
`cause` chain (the recursive call is returned directly, so a miss at this
level defers entirely to the cause). -/
def isRetryableError : JsError → Bool
  | JsError.leaf n m => retryableHit n m
  | JsError.withCause n m c => retryableHit n m || isRetryableError c

/-- Retry configuration (`getRetryConfig`). -/
structure RetryConfig where
  maxRetries : ℕ
  baseDelayMs : ℕ
  maxDelayMs : ℕ
  fallbackNoTools : Bool
deriving DecidableEq

/-- `getRetryDelay`: exponential backoff capped at `maxDelayMs`, with
jitter `delay * 0.25 * (Math.random() - 0.5)` for a uniform draw
`rand` in `[0, 1)`, rounded with `Math.round`. -/
def getRetryDelay (attempt : ℕ) (cfg : RetryConfig) (rand : ℚ) : ℤ :=
  let delay : ℚ := min ((cfg.baseDelayMs : ℚ) * 2 ^ attempt) (cfg.maxDelayMs : ℚ)
  jsRound (delay + delay * (1/4) * (rand - 1/2))

/-- A successful backend generation result (payload opaque to the retry
loop). -/
structure GenResult where
  text : String
deriving DecidableEq

/-- The retry loop of `LLMClient.generate`, starting at a given attempt
counter.  `attempts i` is the outcome of the tool-enabled call on attempt
`i`, and `fallback` is the outcome of the single no-tools fallback call.
On a retryable failure with attempts remaining, retry; once retries are
exhausted on a retryable failure with tools enabled and the fallback flag
set, issue the fallback, and if it also fails re-throw `lastError` (the
error of the current, final tool-enabled attempt); otherwise re-throw the
error. -/
def generateFrom (cfg : RetryConfig) (hasTools : Bool)
    (attempts : ℕ → Except JsError GenResult) (fallback : Except JsError GenResult)
    (attempt : ℕ) : Except JsError GenResult :=
  match attempts attempt with
  | Except.ok r => Except.ok r
  | Except.error e =>
    if h : isRetryableError e = true ∧ attempt < cfg.maxRetries then
      generateFrom cfg hasTools attempts fallback (attempt + 1)
    else if hasTools = true ∧ cfg.fallbackNoTools = true ∧
        cfg.maxRetries ≤ attempt ∧ isRetryableError e = true then
      match fallback with
      | Except.ok r => Except.ok r
      | Except.error _ => Except.error e
    else Except.error e
termination_by cfg.maxRetries - attempt
decreasing_by exact Nat.sub_succ_lt_self _ _ h.2

/-- `LLMClient.generate`: the retry loop entered at attempt 0. -/
def generate (cfg : RetryConfig) (hasTools : Bool)
    (attempts : ℕ → Except JsError GenResult) (fallback : Except JsError GenResult) :
    Except JsError GenResult :=
  generateFrom cfg hasTools attempts fallback 0

/-- A tool call as it appears in a backend step. -/
structure ToolCallRec where
  toolName : String
  toolCallId : ℕ
deriving DecidableEq

/-- A tool result as it appears in a backend step. -/
structure ToolResultRec where
  toolCallId : ℕ
  result : String
deriving DecidableEq

/-- One step of the backend generation (`result.steps[i]`). -/
structure GenStep where
  text : String
  toolCalls : List ToolCallRec
  toolResults : List ToolResultRec
deriving DecidableEq

/-- The backend result consumed by `executeGeneration`: the final text and
the step list. -/
structure BackendResult where
  text : String
  steps : List GenStep
deriving DecidableEq

/-- A flattened tool call as assembled by `executeGeneration`. -/
structure ExtractedToolCall where
  name : String
  result : Option String
deriving DecidableEq

/-- The tool-call extraction loop of `executeGeneration`: flatten the
steps, pairing each tool call with the result of matching id from the
same step. -/
def extractToolCalls (steps : List GenStep) : List ExtractedToolCall :=
  (steps.map (fun st =>
    st.toolCalls.map (fun tc =>
      ⟨tc.toolName,
       (st.toolResults.find? (fun tr => tr.toolCallId == tc.toolCallId)).map
         (fun tr => tr.result)⟩))).flatten

/-- The backfill loop of `executeGeneration`: scan the steps from the last
to the first and take the first non-empty `text`; if none produced text,
`finalText` is left as it was. -/
def backfillText (resultText : String) (steps : List GenStep) : String :=
  match steps.reverse.find? (fun st => !(st.text == "")) with
  | some st => st.text
  | none => resultText

/-- The `text` field of the `LLMResponse` returned by `executeGeneration`:
`result.text`, backfilled from the steps when it is empty (falsy) and the
extracted tool-call list is non-empty. -/
def executeGenerationText (r : BackendResult) : String :=
  if r.text = "" ∧ 0 < (extractToolCalls r.steps).length then
    backfillText r.text r.steps
  else r.text

/-- The state reached when job 0 (standard, budget 1) is reported by the
push channel, the push handler suspends at `getJobV2`, a poll pass admits
the same job, and then the push fetch resolves: `processJob` has begun
twice for the same identifier. -/
def doubleStartState : AgentState :=
  ⟨[0], [], [PendingTask.jobRun 0, PendingTask.jobRun 0], [(0, 1), (0, 1)], [], []⟩

/-- The state reached with capacity 1 when a push notification for job 0
passes the capacity check and suspends at `getJobV2`, a poll pass admits
job 1 (filling the single slot), and then the push fetch resolves: two
jobs are in flight. -/
def overCapacityState : AgentState :=
  ⟨[1, 0], [], [PendingTask.jobRun 1, PendingTask.jobRun 0], [(1, 1), (0, 1)], [], []⟩

/-! Theorems. -/

theorem mem_drop_append (m : List ℕ) (x : ℕ) :
    ∀ k ≤ m.length, x ∈ (m ++ [x]).drop k := by
  induction m with
  | nil =>
    intro k hk
    have hz : k = 0 := Nat.le_zero.mp hk
    subst hz
    simp
  | cons a m ih =>
    intro k hk
    cases k with
    | zero => simp
    | succ k =>
      have := ih k (Nat.le_of_succ_le_succ hk)
      simpa using this

theorem mem_markJobProcessed_self (l : List ℕ) (x : ℕ) (hx : x ∉ l) :
    x ∈ markJobProcessed l x := by
  simp only [markJobProcessed, setAdd, if_neg hx]
  split
  · exact mem_drop_append l x _ (by simp)
  · simp

/-- C8: after every markJobProcessed operation the completed set holds at
most 1000 identifiers, and whatever is evicted is exactly the oldest
prefix of the insertion-ordered set (FIFO). -/
theorem markJobProcessed_cap_and_fifo (l : List ℕ) (x : ℕ) :
    (markJobProcessed l x).length ≤ 1000 ∧
    (setAdd l x).take ((setAdd l x).length - 1000) ++ markJobProcessed l x = setAdd l x := by
  simp only [markJobProcessed]
  constructor
  · split
    · simp only [List.length_drop]
      omega
    · omega
  · split
    · exact List.take_append_drop _ _
    · next h =>
      rw [Nat.sub_eq_zero_of_le (Nat.le_of_not_lt h)]
      simp

/-- C5: a candidate whose effective budget is below the configured floor
is terminally skipped by admission: its identifier enters the completed
set immediately, no generation is begun and no continuation is spawned,
on both the polling path and the push path; and any later discovery event
for an identifier held in the completed set does not progress past
admission. -/
theorem budget_rejection_terminal (cfg : Config) (s t : AgentState) (j j' : Job)
    (e e' : WsEvent) (rest : List Job)
    (h1 : j.id ∉ s.processing) (h2 : j.id ∉ s.processed)
    (h3 : s.processing.length < cfg.maxConcurrentJobs)
    (h4 : effectiveBudget j < cfg.minBudget)
    (h5 : e.jobId ∉ s.processing) (h6 : e.jobId ∉ s.processed)
    (h7 : wsEffectiveBudget e < cfg.minBudget)
    (h8 : e'.jobId ∈ t.processed) (h9 : j'.id ∈ t.processed) :
    pollLoop cfg s [j] = markSkip s j.id ∧
    j.id ∈ (markSkip s j.id).processed ∧
    (markSkip s j.id).starts = s.starts ∧
    (markSkip s j.id).pending = s.pending ∧
    handleWebSocketJob cfg s e = markSkip s e.jobId ∧
    handleWebSocketJob cfg t e' = t ∧
    pollLoop cfg t (j' :: rest) = pollLoop cfg t rest := by
  refine ⟨?_, mem_markJobProcessed_self _ _ h2, rfl, rfl, ?_, ?_, ?_⟩
  · simp only [pollLoop]
    rw [if_neg (not_or.mpr ⟨h1, h2⟩)]
    rw [if_neg (Nat.not_le.mpr h3)]
    rw [if_pos h4]
  · unfold handleWebSocketJob
    rw [if_neg (not_or.mpr ⟨h5, h6⟩)]
    rw [if_neg (Nat.not_le.mpr h3)]
    rw [if_pos h7]
  · unfold handleWebSocketJob
    rw [if_pos (Or.inr h8)]
  · simp only [pollLoop]
    rw [if_pos (Or.inr h9)]

theorem budget_rejection_terminal_witness :
    effectiveBudget ⟨0, 1, JobType.standard, none⟩ < (⟨2, 3⟩ : Config).minBudget ∧
    (pollLoop ⟨2, 3⟩ ⟨[], [], [], [], [], []⟩ [⟨0, 1, JobType.standard, none⟩]
        = markSkip ⟨[], [], [], [], [], []⟩ 0 ∧
      (0 : ℕ) ∈ (markSkip (⟨[], [], [], [], [], []⟩ : AgentState) 0).processed ∧
      (markSkip (⟨[], [], [], [], [], []⟩ : AgentState) 0).starts = [] ∧
      (markSkip (⟨[], [], [], [], [], []⟩ : AgentState) 0).pending = [] ∧
      handleWebSocketJob ⟨2, 3⟩ ⟨[], [], [], [], [], []⟩ ⟨1, 1, JobType.standard, none⟩
        = markSkip ⟨[], [], [], [], [], []⟩ 1 ∧
      handleWebSocketJob ⟨2, 3⟩ ⟨[], [5], [], [], [], []⟩ ⟨5, 3, JobType.standard, none⟩
        = ⟨[], [5], [], [], [], []⟩ ∧
      pollLoop ⟨2, 3⟩ ⟨[], [5], [], [], [], []⟩ [⟨5, 3, JobType.standard, none⟩]
        = pollLoop ⟨2, 3⟩ ⟨[], [5], [], [], [], []⟩ []) :=
  ⟨by decide,
   budget_rejection_terminal ⟨2, 3⟩ ⟨[], [], [], [], [], []⟩ ⟨[], [5], [], [], [], []⟩
     ⟨0, 1, JobType.standard, none⟩ ⟨5, 3, JobType.standard, none⟩
     ⟨1, 1, JobType.standard, none⟩ ⟨5, 3, JobType.standard, none⟩ []
     (by decide) (by decide) (by decide) (by decide) (by decide) (by decide)
     (by decide) (by decide) (by decide)⟩

/-- C10: the budget-floor comparison is strict: a candidate whose
effective budget equals the configured minimum is not budget-skipped on
either discovery path — nothing is recorded in the completed set and the
job proceeds past the budget check (standard jobs enter processJob, swarm
jobs enter the acceptance call, push jobs enter the details fetch). -/
theorem budget_floor_strict (cfg : Config) (s : AgentState) (j : Job) (e : WsEvent)
    (h1 : j.id ∉ s.processing) (h2 : j.id ∉ s.processed)
    (h3 : s.processing.length < cfg.maxConcurrentJobs)
    (h4 : effectiveBudget j = cfg.minBudget)
    (h5 : e.jobId ∉ s.processing) (h6 : e.jobId ∉ s.processed)
    (h7 : wsEffectiveBudget e = cfg.minBudget) :
    pollLoop cfg s [j] =
      (if j.jobType = JobType.swarm then
        { s with pending := s.pending ++ [PendingTask.acceptWait j] }
      else processJobStart s j) ∧
    (pollLoop cfg s [j]).processed = s.processed ∧
    handleWebSocketJob cfg s e = { s with pending := s.pending ++ [PendingTask.wsFetch e] } := by
  have hb : ¬ effectiveBudget j < cfg.minBudget := by rw [h4]; exact lt_irrefl _
  have hb' : ¬ wsEffectiveBudget e < cfg.minBudget := by rw [h7]; exact lt_irrefl _
  have hmain : pollLoop cfg s [j] =
      if j.jobType = JobType.swarm then
        { s with pending := s.pending ++ [PendingTask.acceptWait j] }
      else processJobStart s j := by
    simp only [pollLoop]
    rw [if_neg (not_or.mpr ⟨h1, h2⟩)]
    rw [if_neg (Nat.not_le.mpr h3)]
    rw [if_neg hb]
  refine ⟨hmain, ?_, ?_⟩
  · rw [hmain]
    split <;> rfl
  · unfold handleWebSocketJob
    rw [if_neg (not_or.mpr ⟨h5, h6⟩)]
    rw [if_neg (Nat.not_le.mpr h3)]
    rw [if_neg hb']

theorem budget_floor_strict_witness :
    effectiveBudget ⟨0, 2, JobType.standard, none⟩ = (⟨2, 3⟩ : Config).minBudget ∧
    (pollLoop ⟨2, 3⟩ ⟨[], [], [], [], [], []⟩ [⟨0, 2, JobType.standard, none⟩]
        = (if (⟨0, 2, JobType.standard, none⟩ : Job).jobType = JobType.swarm then
            { (⟨[], [], [], [], [], []⟩ : AgentState) with
                pending := [] ++ [PendingTask.acceptWait ⟨0, 2, JobType.standard, none⟩] }
          else processJobStart ⟨[], [], [], [], [], []⟩ ⟨0, 2, JobType.standard, none⟩) ∧
      (pollLoop ⟨2, 3⟩ ⟨[], [], [], [], [], []⟩ [⟨0, 2, JobType.standard, none⟩]).processed
        = [] ∧
      handleWebSocketJob ⟨2, 3⟩ ⟨[], [], [], [], [], []⟩ ⟨1, 2, JobType.standard, none⟩
        = { (⟨[], [], [], [], [], []⟩ : AgentState) with
              pending := [] ++ [PendingTask.wsFetch ⟨1, 2, JobType.standard, none⟩] }) :=
  ⟨by decide,
   budget_floor_strict ⟨2, 3⟩ ⟨[], [], [], [], [], []⟩
     ⟨0, 2, JobType.standard, none⟩ ⟨1, 2, JobType.standard, none⟩
     (by decide) (by decide) (by decide) (by decide) (by decide) (by decide) (by decide)⟩

/-- C1: the claim fails on the code.  The push handler has a suspension
point (the `getJobV2` await) between its already-seen check and the
`processingJobs` insertion performed inside `processJob`, so with job 0
reported by both discovery sources there is an interleaving in which both
events progress past admission: the final state records two `processJob`
starts (two job_processing emissions) for the same identifier. -/
theorem ws_poll_double_admission :
    Reachable ⟨0, 2⟩ (initState []) doubleStartState ∧
    doubleStartState.starts.map Prod.fst = [0, 0] := by
  have t1 : Step (⟨0, 2⟩ : Config) (initState [])
      ⟨[], [], [PendingTask.wsFetch ⟨0, 1, JobType.standard, none⟩], [], [], []⟩ := by
    rw [show (⟨[], [], [PendingTask.wsFetch ⟨0, 1, JobType.standard, none⟩], [], [], []⟩ :
        AgentState)
       = handleWebSocketJob ⟨0, 2⟩ (initState []) ⟨0, 1, JobType.standard, none⟩ from by decide]
    exact Step.wsEvent _ _
  have t2 : Step (⟨0, 2⟩ : Config)
      ⟨[], [], [PendingTask.wsFetch ⟨0, 1, JobType.standard, none⟩], [], [], []⟩
      ⟨[0], [], [PendingTask.wsFetch ⟨0, 1, JobType.standard, none⟩, PendingTask.jobRun 0],
        [(0, 1)], [], []⟩ := by
    rw [show (⟨[0], [],
          [PendingTask.wsFetch ⟨0, 1, JobType.standard, none⟩, PendingTask.jobRun 0],
          [(0, 1)], [], []⟩ : AgentState)
       = pollLoop ⟨0, 2⟩
           ⟨[], [], [PendingTask.wsFetch ⟨0, 1, JobType.standard, none⟩], [], [], []⟩
           [⟨0, 1, JobType.standard, none⟩] from by decide]
    exact Step.pollPass _ _
  have t3 : Step (⟨0, 2⟩ : Config)
      ⟨[0], [], [PendingTask.wsFetch ⟨0, 1, JobType.standard, none⟩, PendingTask.jobRun 0],
        [(0, 1)], [], []⟩
      doubleStartState := by
    rw [show doubleStartState
       = handleWebSocketJobResume
           { (⟨[0], [],
               [PendingTask.wsFetch ⟨0, 1, JobType.standard, none⟩, PendingTask.jobRun 0],
               [(0, 1)], [], []⟩ : AgentState) with
             pending := ([] : List PendingTask) ++ [PendingTask.jobRun 0] }
           ⟨0, 1, JobType.standard, none⟩ from by decide]
    exact Step.wsFetchResume _ [] [PendingTask.jobRun 0] ⟨0, 1, JobType.standard, none⟩
      ⟨0, 1, JobType.standard, none⟩ rfl rfl
  exact ⟨Relation.ReflTransGen.head t1 (Relation.ReflTransGen.head t2
    (Relation.ReflTransGen.single t3)), by decide⟩

/-- C2: the claim fails on the code.  The push handler performs its
capacity check before the `getJobV2` await but only inserts into
`processingJobs` after it, so with capacity 1 there is an interleaving
(push notification for job 0 in flight while a poll pass admits job 1)
that reaches a state with two jobs in flight, exceeding the configured
maximum of 1. -/
theorem ws_poll_capacity_exceeded :
    Reachable ⟨0, 1⟩ (initState []) overCapacityState ∧
    (⟨0, 1⟩ : Config).maxConcurrentJobs < overCapacityState.processing.length := by
  have t1 : Step (⟨0, 1⟩ : Config) (initState [])
      ⟨[], [], [PendingTask.wsFetch ⟨0, 1, JobType.standard, none⟩], [], [], []⟩ := by
    rw [show (⟨[], [], [PendingTask.wsFetch ⟨0, 1, JobType.standard, none⟩], [], [], []⟩ :
        AgentState)
       = handleWebSocketJob ⟨0, 1⟩ (initState []) ⟨0, 1, JobType.standard, none⟩ from by decide]
    exact Step.wsEvent _ _
  have t2 : Step (⟨0, 1⟩ : Config)
      ⟨[], [], [PendingTask.wsFetch ⟨0, 1, JobType.standard, none⟩], [], [], []⟩
      ⟨[1], [], [PendingTask.wsFetch ⟨0, 1, JobType.standard, none⟩, PendingTask.jobRun 1],
        [(1, 1)], [], []⟩ := by
    rw [show (⟨[1], [],
          [PendingTask.wsFetch ⟨0, 1, JobType.standard, none⟩, PendingTask.jobRun 1],
          [(1, 1)], [], []⟩ : AgentState)
       = pollLoop ⟨0, 1⟩
           ⟨[], [], [PendingTask.wsFetch ⟨0, 1, JobType.standard, none⟩], [], [], []⟩
           [⟨1, 1, JobType.standard, none⟩] from by decide]
    exact Step.pollPass _ _
  have t3 : Step (⟨0, 1⟩ : Config)
      ⟨[1], [], [PendingTask.wsFetch ⟨0, 1, JobType.standard, none⟩, PendingTask.jobRun 1],
        [(1, 1)], [], []⟩
      overCapacityState := by
    rw [show overCapacityState
       = handleWebSocketJobResume
           { (⟨[1], [],
               [PendingTask.wsFetch ⟨0, 1, JobType.standard, none⟩, PendingTask.jobRun 1],
               [(1, 1)], [], []⟩ : AgentState) with
             pending := ([] : List PendingTask) ++ [PendingTask.jobRun 1] }
           ⟨0, 1, JobType.standard, none⟩ from by decide]
    exact Step.wsFetchResume _ [] [PendingTask.jobRun 1] ⟨0, 1, JobType.standard, none⟩
      ⟨0, 1, JobType.standard, none⟩ rfl rfl
  exact ⟨Relation.ReflTransGen.head t1 (Relation.ReflTransGen.head t2
    (Relation.ReflTransGen.single t3)), by decide⟩

/-- C3 counterexample: at a concrete already-accepted failure of the
accept call, the worker does not proceed to generation — the state is
returned unchanged, so no job_processing is recorded for the job. -/
theorem already_accepted_no_generation :
    acceptAndProcessSwarmJobResume ⟨[], [], [], [], [], []⟩ ⟨5, 10, JobType.swarm, some 1⟩
        (AcceptOutcome.err "Failed to accept job: already accepted") =
      ⟨[], [], [], [], [], []⟩ ∧
    (acceptAndProcessSwarmJobResume ⟨[], [], [], [], [], []⟩ ⟨5, 10, JobType.swarm, some 1⟩
        (AcceptOutcome.err "Failed to accept job: already accepted")).starts = [] := by
  exact ⟨by decide, by decide⟩

/-- C3 (amended): an accept failure whose message marks a duplicate
accept is swallowed silently — no error is raised or recorded, but also
no generation is begun and the job is not marked processed: the state is
unchanged. -/
theorem already_accepted_swallowed (s : AgentState) (j : Job) (msg : String)
    (h1 : jsIncludes msg "job_full" = false)
    (h2 : jsIncludes msg "All agent slots" = false)
    (h3 : jsIncludes msg "already accepted" = true) :
    acceptAndProcessSwarmJobResume s j (AcceptOutcome.err msg) = s := by
  simp [acceptAndProcessSwarmJobResume, h1, h2, h3]

theorem already_accepted_swallowed_witness :
    jsIncludes "already accepted" "already accepted" = true ∧
    acceptAndProcessSwarmJobResume ⟨[], [], [], [], [], []⟩ ⟨9, 4, JobType.swarm, some 2⟩
        (AcceptOutcome.err "already accepted") = ⟨[], [], [], [], [], []⟩ :=
  ⟨by decide,
   already_accepted_swallowed ⟨[], [], [], [], [], []⟩ ⟨9, 4, JobType.swarm, some 2⟩
     "already accepted" (by decide) (by decide) (by decide)⟩

/-- C4 counterexample: a swarm job advertising a per-agent budget of 1 is
accepted with an acceptance response reporting a per-agent budget of 2;
the generation nevertheless runs with budget 1 (the advertised value),
not the budget returned by the acceptance response. -/
theorem acceptance_budget_ignored_by_generation :
    (acceptAndProcessSwarmJobResume ⟨[], [], [], [], [], []⟩ ⟨7, 10, JobType.swarm, some 1⟩
        (AcceptOutcome.ok (some 2))).starts = [(7, 1)] ∧
    (1 : ℚ) ≠ 2 := by
  exact ⟨by decide, by norm_num⟩

/-- C4 (amended): after a successful accept, the budget threaded into the
generation prompt is the candidate job effective budget recomputed from
its advertised fields, whatever per-agent budget the acceptance response
reports; the acceptance-reported budget is recorded only in the
job_accepted event. -/
theorem accepted_budget_only_in_event (s : AgentState) (j : Job) (bpa : Option ℚ) :
    (acceptAndProcessSwarmJobResume s j (AcceptOutcome.ok bpa)).starts
        = s.starts ++ [(j.id, effectiveBudget j)] ∧
    (acceptAndProcessSwarmJobResume s j (AcceptOutcome.ok bpa)).accepted
        = s.accepted ++ [(j.id, bpa)] := by
  exact ⟨rfl, rfl⟩

theorem jsRound_jitter_bounds (D : ℕ) (r : ℚ) (h0 : 0 ≤ r) (h1 : r < 1) :
    (3/4 : ℚ) * D ≤ (jsRound ((D : ℚ) + (D : ℚ) * (1/4) * (r - 1/2)) : ℚ) ∧
    (jsRound ((D : ℚ) + (D : ℚ) * (1/4) * (r - 1/2)) : ℚ) ≤ (5/4) * D := by
  have hD0 : (0 : ℚ) ≤ (D : ℚ) := Nat.cast_nonneg D
  set x : ℚ := (D : ℚ) + (D : ℚ) * (1/4) * (r - 1/2) with hxdef
  have hxeq : x = (7/8) * (D : ℚ) + (D : ℚ) * r / 4 := by rw [hxdef]; ring
  have hxl : (7/8 : ℚ) * D ≤ x := by
    rw [hxeq]
    nlinarith
  have hxu : x ≤ (9/8 : ℚ) * D := by
    rw [hxeq]
    nlinarith
  have hfl : (jsRound x : ℚ) ≤ x + 1/2 := by
    unfold jsRound
    exact_mod_cast Int.floor_le (x + 1/2)
  have hfg : x + 1/2 - 1 < (jsRound x : ℚ) := by
    unfold jsRound
    exact_mod_cast Int.sub_one_lt_floor (x + 1/2)
  rcases le_or_lt 4 D with h4 | h4
  · have h4q : (4 : ℚ) ≤ (D : ℚ) := by exact_mod_cast h4
    constructor
    · linarith
    · linarith
  · interval_cases D
    · have hx0 : x = 0 := by rw [hxeq]; norm_num
      have h00 : jsRound 0 = 0 := by
        unfold jsRound
        rw [Int.floor_eq_iff]
        norm_num
      rw [hx0, h00]
      norm_num
    · have e1 : ((1 : ℕ) : ℚ) = 1 := by norm_num
      rw [e1] at hxl hxu
      have hx9 : x < (9/8 : ℚ) * 1 + 1/8 := by
        rw [hxeq, e1]
        nlinarith
      have hone : jsRound x = 1 := by
        unfold jsRound
        rw [Int.floor_eq_iff]
        constructor
        · push_cast
          linarith
        · push_cast
          linarith
      rw [hone]
      norm_num
    · have e1 : ((2 : ℕ) : ℚ) = 2 := by norm_num
      rw [e1] at hxl hxu
      have hx9 : x < (9/8 : ℚ) * 2 + 0 := by
        rw [hxeq, e1]
        nlinarith
      have htwo : jsRound x = 2 := by
        unfold jsRound
        rw [Int.floor_eq_iff]
        constructor
        · push_cast
          linarith
        · push_cast
          linarith
      rw [htwo]
      norm_num
    · have e1 : ((3 : ℕ) : ℚ) = 3 := by norm_num
      rw [e1] at hxl hxu
      have hx9 : x < (9/8 : ℚ) * 3 + 0 := by
        rw [hxeq, e1]
        nlinarith
      have hthree : jsRound x = 3 := by
        unfold jsRound
        rw [Int.floor_eq_iff]
        constructor
        · push_cast
          linarith
        · push_cast
          linarith
      rw [hthree]
      norm_num

/-- C6: for every attempt number and every jitter draw in [0, 1), the
computed retry delay lies within 0.75 to 1.25 times
min(baseDelayMs * 2 ^ attempt, maxDelayMs).  The draw shifts the delay by
at most 12.5 percent before rounding, so the value stays inside the
claimed band. -/
theorem getRetryDelay_in_band (cfg : RetryConfig) (n : ℕ) (r : ℚ)
    (h0 : 0 ≤ r) (h1 : r < 1) :
    (3/4 : ℚ) * min ((cfg.baseDelayMs : ℚ) * 2 ^ n) (cfg.maxDelayMs : ℚ)
        ≤ (getRetryDelay n cfg r : ℚ) ∧
    (getRetryDelay n cfg r : ℚ)
        ≤ (5/4 : ℚ) * min ((cfg.baseDelayMs : ℚ) * 2 ^ n) (cfg.maxDelayMs : ℚ) := by
  have hmin : min ((cfg.baseDelayMs : ℚ) * 2 ^ n) ((cfg.maxDelayMs : ℚ))
      = ((min (cfg.baseDelayMs * 2 ^ n) cfg.maxDelayMs : ℕ) : ℚ) := by
    push_cast
    rfl
  simp only [getRetryDelay]
  rw [hmin]
  exact jsRound_jitter_bounds (min (cfg.baseDelayMs * 2 ^ n) cfg.maxDelayMs) r h0 h1

theorem getRetryDelay_in_band_witness :
    (0 : ℚ) ≤ 1/2 ∧ (1/2 : ℚ) < 1 ∧
    ((3/4 : ℚ) * min (((⟨3, 1000, 10000, true⟩ : RetryConfig).baseDelayMs : ℚ) * 2 ^ 2)
          ((⟨3, 1000, 10000, true⟩ : RetryConfig).maxDelayMs : ℚ)
        ≤ (getRetryDelay 2 ⟨3, 1000, 10000, true⟩ (1/2) : ℚ) ∧
      (getRetryDelay 2 ⟨3, 1000, 10000, true⟩ (1/2) : ℚ)
        ≤ (5/4 : ℚ) * min (((⟨3, 1000, 10000, true⟩ : RetryConfig).baseDelayMs : ℚ) * 2 ^ 2)
            ((⟨3, 1000, 10000, true⟩ : RetryConfig).maxDelayMs : ℚ)) :=
  ⟨by norm_num, by norm_num,
   getRetryDelay_in_band ⟨3, 1000, 10000, true⟩ 2 (1/2) (by norm_num) (by norm_num)⟩

/-- C7: when every tool-enabled attempt up to the retry limit fails with
a retryable error and the enabled no-tools fallback also fails, the error
surfaced by generate is the retryable error from the (final) tool-enabled
attempt, not the fallback attempt error. -/
theorem generate_surfaces_tool_error (cfg : RetryConfig) (hasTools : Bool)
    (attempts : ℕ → Except JsError GenResult)
    (errs : ℕ → JsError) (f : JsError)
    (hT : hasTools = true) (hF : cfg.fallbackNoTools = true)
    (hA : ∀ i, i ≤ cfg.maxRetries → attempts i = Except.error (errs i))
    (hR : ∀ i, i ≤ cfg.maxRetries → isRetryableError (errs i) = true) :
    generate cfg hasTools attempts (Except.error f)
      = Except.error (errs cfg.maxRetries) := by
  suffices h : ∀ k a, cfg.maxRetries - a = k → a ≤ cfg.maxRetries →
      generateFrom cfg hasTools attempts (Except.error f) a
        = Except.error (errs cfg.maxRetries) by
    exact h cfg.maxRetries 0 (Nat.sub_zero _) (Nat.zero_le _)
  intro k
  induction k with
  | zero =>
    intro a hk ha
    have haa : a = cfg.maxRetries := by omega
    subst haa
    rw [generateFrom]
    rw [hA _ le_rfl]
    dsimp only
    rw [dif_neg (by
      intro hcon
      exact absurd hcon.2 (lt_irrefl _) :
        ¬ (isRetryableError (errs cfg.maxRetries) = true ∧
           cfg.maxRetries < cfg.maxRetries))]
    rw [if_pos ⟨hT, hF, le_rfl, hR _ le_rfl⟩]
  | succ k ih =>
    intro a hk ha
    have halt : a < cfg.maxRetries := by omega
    rw [generateFrom]
    rw [hA a (le_of_lt halt)]
    dsimp only
    rw [dif_pos ⟨hR a (le_of_lt halt), halt⟩]
    exact ih (a + 1) (by omega) halt

theorem generate_surfaces_tool_error_witness :
    isRetryableError (JsError.leaf "AI_JSONParseError" "bad tool json") = true ∧
    generate ⟨1, 500, 2000, true⟩ true
        (fun _ => Except.error (JsError.leaf "AI_JSONParseError" "bad tool json"))
        (Except.error (JsError.leaf "FallbackFailed" "still no"))
      = Except.error (JsError.leaf "AI_JSONParseError" "bad tool json") :=
  ⟨by decide,
   generate_surfaces_tool_error ⟨1, 500, 2000, true⟩ true
     (fun _ => Except.error (JsError.leaf "AI_JSONParseError" "bad tool json"))
     (fun _ => JsError.leaf "AI_JSONParseError" "bad tool json")
     (JsError.leaf "FallbackFailed" "still no")
     rfl rfl (fun _ _ => rfl)
     (fun _ _ =>
       (by decide :
         isRetryableError (JsError.leaf "AI_JSONParseError" "bad tool json") = true))⟩

theorem find?_of_head_false {α : Type} (p : α → Bool) (l r : List α) (st : α)
    (hl : ∀ x ∈ l, p x = false) (hst : p st = true) :
    (l ++ st :: r).find? p = some st := by
  induction l with
  | nil => simp [List.find?, hst]
  | cons a as ih =>
    simp only [List.cons_append, List.find?]
    rw [hl a (by simp)]
    exact ih (fun x hx => hl x (by simp [hx]))

/-- C9: when the backend terminates with an empty final text, the
extracted tool-call list is non-empty, and some step produced non-empty
text, the response text is backfilled from the last step that produced
any text, and in particular is non-empty. -/
theorem backfilled_text_from_last_step (r : BackendResult) (l₁ l₂ : List GenStep)
    (st : GenStep)
    (h0 : r.text = "")
    (h1 : 0 < (extractToolCalls r.steps).length)
    (h2 : r.steps = l₁ ++ st :: l₂)
    (h3 : st.text ≠ "")
    (h4 : ∀ u ∈ l₂, u.text = "") :
    executeGenerationText r = st.text ∧ executeGenerationText r ≠ "" := by
  have hmain : executeGenerationText r = st.text := by
    unfold executeGenerationText
    rw [if_pos ⟨h0, h1⟩]
    unfold backfillText
    rw [h2]
    have hrev : (l₁ ++ st :: l₂).reverse = l₂.reverse ++ st :: l₁.reverse := by
      simp
    rw [hrev]
    rw [find?_of_head_false (fun u => !(u.text == "")) l₂.reverse l₁.reverse st
      (fun x hx => by simp [h4 x (List.mem_reverse.mp hx)])
      (by simp [h3])]
  exact ⟨hmain, hmain ▸ h3⟩

theorem backfilled_text_from_last_step_witness :
    (⟨"", [⟨"mid", [⟨"t", 1⟩], []⟩, ⟨"", [], []⟩]⟩ : BackendResult).text = "" ∧
    executeGenerationText ⟨"", [⟨"mid", [⟨"t", 1⟩], []⟩, ⟨"", [], []⟩]⟩
      = (⟨"mid", [⟨"t", 1⟩], []⟩ : GenStep).text ∧
    executeGenerationText ⟨"", [⟨"mid", [⟨"t", 1⟩], []⟩, ⟨"", [], []⟩]⟩ ≠ "" :=
  ⟨rfl,
   backfilled_text_from_last_step ⟨"", [⟨"mid", [⟨"t", 1⟩], []⟩, ⟨"", [], []⟩]⟩
     [] [⟨"", [], []⟩] ⟨"mid", [⟨"t", 1⟩], []⟩
     rfl (by decide) rfl (by decide) (by decide)⟩

end SeedAgent
